import Mathlib

/- Verification of the Caesar cipher program `caesar_cipher.py`.

Strings are modelled as `List Char` (a Python `str` is a sequence of Unicode
scalar values).  Integer arithmetic uses `Int` with `%` (`Int.emod`), which for
the positive modulus 26 agrees with Python's `%` (non-negative remainder). -/

/-- The constant `ALPHABET_SIZE = 26` from the source. -/
def ALPHABET_SIZE : Int := 26

/-- Python's `str.isalpha()` on a single character, modelled exactly on the
Latin-1 range U+0000..U+00FF (ASCII letters; ª µ º; À..ÿ except × and ÷).
Code points above U+00FF are treated as non-alphabetic here; Python additionally
classifies many of those as alphabetic, but no theorem in this file quantifies
over or evaluates at such a code point. -/
def py_isalpha (c : Char) : Bool :=
  decide ((65 ≤ c.toNat ∧ c.toNat ≤ 90) ∨ (97 ≤ c.toNat ∧ c.toNat ≤ 122) ∨
    c.toNat = 170 ∨ c.toNat = 181 ∨ c.toNat = 186 ∨
    (192 ≤ c.toNat ∧ c.toNat ≤ 255 ∧ c.toNat ≠ 215 ∧ c.toNat ≠ 247))

/-- Python's `str.isupper()` on a single character, modelled exactly on the
Latin-1 range U+0000..U+00FF (A..Z and À..Þ except ×). -/
def py_isupper (c : Char) : Bool :=
  decide ((65 ≤ c.toNat ∧ c.toNat ≤ 90) ∨
    (192 ≤ c.toNat ∧ c.toNat ≤ 222 ∧ c.toNat ≠ 215))

/-- `normalize_shift(shift) = shift % ALPHABET_SIZE` (source line 19-20). -/
def normalize_shift (shift : Int) : Int :=
  shift % ALPHABET_SIZE

/-- `shift_char(ch, shift)` (source lines 22-26): if `ch.isalpha()`, pick the
base `'A'` or `'a'` by `ch.isupper()` and return
`chr((ord(ch) - base + shift) % 26 + base)`; otherwise return `ch` unchanged. -/
def shift_char (ch : Char) (shift : Int) : Char :=
  if py_isalpha ch then
    Char.ofNat ((((ch.toNat : Int) - (if py_isupper ch then 65 else 97) + shift)
      % ALPHABET_SIZE + (if py_isupper ch then 65 else 97)).toNat)
  else ch

/-- `encrypt(text, shift)` (source lines 28-30): normalize the shift once, then
apply `shift_char` to every character in order. -/
def encrypt (text : List Char) (shift : Int) : List Char :=
  text.map (fun c => shift_char c (normalize_shift shift))

/-- `decrypt(text, shift) = encrypt(text, -shift)` (source lines 32-33). -/
def decrypt (text : List Char) (shift : Int) : List Char :=
  encrypt text (-shift)

/-- `brute_force_candidates(text) = [(s, decrypt(text, s)) for s in range(26)]`
(source lines 35-36). -/
def brute_force_candidates (text : List Char) : List (Int × List Char) :=
  (List.range 26).map (fun (s : Nat) => ((s : Int), decrypt text (s : Int)))

/-- Python whitespace, modelled on the ASCII range (space, tab, newline,
carriage return, vertical tab, form feed); Python also strips a few Unicode
space characters, which no theorem here depends on. -/
def py_isspace (c : Char) : Bool :=
  decide (c = ' ' ∨ c = '\t' ∨ c = '\n' ∨ c = '\r' ∨ c.toNat = 11 ∨ c.toNat = 12)

/-- Python's `str.strip()`: drop leading and trailing whitespace. -/
def py_strip (s : List Char) : List Char :=
  ((s.dropWhile py_isspace).reverse.dropWhile py_isspace).reverse

/-- Python's `str.lower()` on one character, modelled exactly on the Latin-1
range (A..Z and À..Þ except × map down by 32; everything else unchanged). -/
def py_lower_char (c : Char) : Char :=
  if py_isupper c then Char.ofNat (c.toNat + 32) else c

/-- Python's `str.lower()`: lower every character. -/
def py_lower (s : List Char) : List Char :=
  s.map py_lower_char

/-- ASCII decimal digit test, as used by Python's `int()`. -/
def py_digit (c : Char) : Bool :=
  decide (48 ≤ c.toNat ∧ c.toNat ≤ 57)

/-- Tail of Python's decimal-literal scan: after at least one digit has been
read into `acc`, further digits may follow, with single underscores allowed
only between digits. -/
def digitsLoop : Nat → List Char → Option Nat
  | acc, [] => some acc
  | acc, '_' :: d :: rest =>
      if py_digit d then digitsLoop (acc * 10 + (d.toNat - 48)) rest else none
  | _, ['_'] => none
  | acc, c :: rest =>
      if py_digit c then digitsLoop (acc * 10 + (c.toNat - 48)) rest else none

/-- A nonempty ASCII digit string (single underscores permitted between
digits), as accepted by Python's `int()` after sign handling. -/
def py_int_core : List Char → Option Nat
  | [] => none
  | c :: rest => if py_digit c then digitsLoop (c.toNat - 48) rest else none

/-- Python's `int(s)` for base 10, modelled for ASCII digit strings: strip
whitespace, take an optional `+`/`-` sign, then a nonempty digit string
(underscores allowed between digits).  Python additionally accepts non-ASCII
decimal digits, which no theorem here depends on.  `none` models the
`ValueError` raised on any other input. -/
def py_int (s : List Char) : Option Int :=
  match py_strip s with
  | '+' :: rest => (py_int_core rest).map (fun n => (n : Int))
  | '-' :: rest => (py_int_core rest).map (fun n => -(n : Int))
  | t => (py_int_core t).map (fun n => (n : Int))

/-- Decimal rendering of a normalized shift, as Python's f-string `{...}`
prints a non-negative int. -/
def showShift (shift : Int) : List Char :=
  Nat.toDigits 10 (normalize_shift shift).toNat

/-- The line `f"\nEncrypted (shift {normalize_shift(shift)}): {result}\n"`
printed by the interactive loop (source line 82). -/
def encryptedMsg (shift : Int) (text : List Char) : List Char :=
  "\nEncrypted (shift ".data ++ showShift shift ++ "): ".data
    ++ encrypt text shift ++ "\n".data

/-- The line `f"\nDecrypted (shift {normalize_shift(shift)}): {result}\n"`
printed by the interactive loop (source line 85). -/
def decryptedMsg (shift : Int) (text : List Char) : List Char :=
  "\nDecrypted (shift ".data ++ showShift shift ++ "): ".data
    ++ decrypt text shift ++ "\n".data

/-- Python's `f"{s:>2}"`: the decimal digits of `s`, right-aligned to width 2
with spaces. -/
def padShift (s : Nat) : List Char :=
  let d := Nat.toDigits 10 s
  List.replicate (2 - d.length) ' ' ++ d

/-- The lines printed by the brute-force branch of the interactive loop
(source lines 68-71): a header, one `f"{s:>2} : {candidate}"` line per
candidate, and a blank line. -/
def bruteForceOutput (text : List Char) : List (List Char) :=
  "\nTrying all 26 keys... (shift : candidate)".data
    :: ((brute_force_candidates text).map
        (fun p => padShift p.1.toNat ++ " : ".data ++ p.2))
    ++ ["".data]

/-- States of the interactive loop (source lines 53-85): waiting for the mode
line, the message line, or the shift line, or terminated after `q`.  The state
carries exactly the data the loop still holds from earlier prompts. -/
inductive IState where
  | awaitMode : IState
  | awaitText : List Char → IState
  | awaitShift : List Char → List Char → IState
  | terminated : IState
deriving DecidableEq

/-- One input line consumed by the interactive loop: the next state and the
list of texts passed to `print(...)` in between (prompt strings excluded).
Faithful to source lines 53-85: the mode line is stripped and lowercased, the
message line is taken verbatim, the shift line is stripped; in the shift state
`mode == 'd' and shift_str == '?'` is checked before integer parsing, and a
parse failure prints the error text and restarts the loop at the mode prompt. -/
def istep : IState → List Char → IState × List (List Char)
  | .awaitMode, line =>
      let m := py_lower (py_strip line)
      if m = [] then (.awaitMode, [])
      else if m = "q".data then (.terminated, ["Goodbye!".data])
      else if m = "e".data ∨ m = "d".data then (.awaitText m, [])
      else (.awaitMode, ["Please enter E, D, or Q.".data])
  | .awaitText m, line => (.awaitShift m line, [])
  | .awaitShift m t, line =>
      let s := py_strip line
      if m = "d".data ∧ s = "?".data then (.awaitMode, bruteForceOutput t)
      else
        match py_int s with
        | none =>
            (.awaitMode,
             ["Shift must be an integer (e.g., 3, -2, 52). Try again.\n".data])
        | some k =>
            if m = "e".data then (.awaitMode, [encryptedMsg k t])
            else (.awaitMode, [decryptedMsg k t])
  | .terminated, _ => (.terminated, [])

/-- The three optional command-line arguments accepted by `build_parser`
(source lines 87-92).  `argparse` guarantees that a present `mode` is one of
the strings `"encrypt"` or `"decrypt"`. -/
structure Args where
  mode : Option String
  shift : Option Int
  text : Option String

/-- Python truthiness of an `Optional[str]`: `None` and `""` are falsy. -/
def py_truthy : Option String → Bool
  | none => false
  | some s => decide (s ≠ "")

/-- The dispatch condition of `main` (source line 97):
`args.mode and args.shift is not None and args.text is not None`.  `True`
selects the one-shot batch path `run_cli`, `False` falls through to
`interactive()`. -/
def main_runs_batch (a : Args) : Bool :=
  py_truthy a.mode && a.shift.isSome && a.text.isSome

/-- Characters with equal code points are equal. -/
theorem char_eq_of_toNat {c d : Char} (h : c.toNat = d.toNat) : c = d := by
  rw [← Char.ofNat_toNat c, ← Char.ofNat_toNat d, h]

/-- Below the surrogate range, `Char.ofNat` inverts `Char.toNat`. -/
theorem char_toNat_ofNat (n : Nat) (h : n < 55296) : (Char.ofNat n).toNat = n := by
  rw [Char.ofNat, dif_pos (Or.inl h)]
  rfl

/-- `shift_char` on a character that Python does not classify as alphabetic is
the identity. -/
theorem shift_char_of_not_alpha (c : Char) (s : Int) (h : py_isalpha c = false) :
    shift_char c s = c := by
  simp [shift_char, h]

/-- Code-point formula for `shift_char` on an ASCII uppercase letter. -/
theorem shift_char_upper_toNat (c : Char) (s : Int)
    (h1 : 65 ≤ c.toNat) (h2 : c.toNat ≤ 90) :
    ((shift_char c s).toNat : Int) = ((c.toNat : Int) - 65 + s) % 26 + 65 := by
  have ha : py_isalpha c = true := by
    simp only [py_isalpha, decide_eq_true_eq]
    omega
  have hu : py_isupper c = true := by
    simp only [py_isupper, decide_eq_true_eq]
    omega
  have hnn := Int.emod_nonneg ((c.toNat : Int) - 65 + s) (by norm_num : (26 : Int) ≠ 0)
  have hlt := Int.emod_lt_of_pos ((c.toNat : Int) - 65 + s) (by norm_num : (0 : Int) < 26)
  rw [shift_char, if_pos ha, if_pos hu]
  rw [show ALPHABET_SIZE = 26 from rfl]
  rw [char_toNat_ofNat _ (by omega)]
  omega

/-- Code-point formula for `shift_char` on an ASCII lowercase letter. -/
theorem shift_char_lower_toNat (c : Char) (s : Int)
    (h1 : 97 ≤ c.toNat) (h2 : c.toNat ≤ 122) :
    ((shift_char c s).toNat : Int) = ((c.toNat : Int) - 97 + s) % 26 + 97 := by
  have ha : py_isalpha c = true := by
    simp only [py_isalpha, decide_eq_true_eq]
    omega
  have hu : py_isupper c = false := by
    simp only [py_isupper, decide_eq_false_iff_not]
    omega
  have hnn := Int.emod_nonneg ((c.toNat : Int) - 97 + s) (by norm_num : (26 : Int) ≠ 0)
  have hlt := Int.emod_lt_of_pos ((c.toNat : Int) - 97 + s) (by norm_num : (0 : Int) < 26)
  have hu' : ¬(py_isupper c = true) := by simp [hu]
  rw [shift_char, if_pos ha, if_neg hu']
  rw [show ALPHABET_SIZE = 26 from rfl]
  rw [char_toNat_ofNat _ (by omega)]
  omega

/-- Shifting forward by `s % 26` and back by `(-s) % 26` is the identity on
any character below U+0080. -/
theorem shift_char_roundtrip_ascii (c : Char) (s : Int) (h : c.toNat < 128) :
    shift_char (shift_char c (normalize_shift s)) (normalize_shift (-s)) = c := by
  rw [show normalize_shift s = s % 26 from rfl, show normalize_shift (-s) = (-s) % 26 from rfl]
  by_cases hu : 65 ≤ c.toNat ∧ c.toNat ≤ 90
  · have e1 := shift_char_upper_toNat c (s % 26) hu.1 hu.2
    have hb1 := Int.emod_nonneg ((c.toNat : Int) - 65 + s % 26)
      (by norm_num : (26 : Int) ≠ 0)
    have hb2 := Int.emod_lt_of_pos ((c.toNat : Int) - 65 + s % 26)
      (by norm_num : (0 : Int) < 26)
    have e2 := shift_char_upper_toNat (shift_char c (s % 26))
      ((-s) % 26) (by omega) (by omega)
    apply char_eq_of_toNat
    omega
  · by_cases hl : 97 ≤ c.toNat ∧ c.toNat ≤ 122
    · have e1 := shift_char_lower_toNat c (s % 26) hl.1 hl.2
      have hb1 := Int.emod_nonneg ((c.toNat : Int) - 97 + s % 26)
        (by norm_num : (26 : Int) ≠ 0)
      have hb2 := Int.emod_lt_of_pos ((c.toNat : Int) - 97 + s % 26)
        (by norm_num : (0 : Int) < 26)
      have e2 := shift_char_lower_toNat (shift_char c (s % 26))
        ((-s) % 26) (by omega) (by omega)
      apply char_eq_of_toNat
      omega
    · have ha : py_isalpha c = false := by
        simp only [py_isalpha, decide_eq_false_iff_not]
        push_neg
        omega
      rw [shift_char_of_not_alpha _ _ ha, shift_char_of_not_alpha _ _ ha]

/-- Shifting by a shift that normalizes to `0` fixes any character below
U+0080. -/
theorem shift_char_norm_zero_ascii (c : Char) (s : Int) (h : c.toNat < 128)
    (hz : normalize_shift s = 0) :
    shift_char c (normalize_shift s) = c := by
  rw [hz]
  by_cases hu : 65 ≤ c.toNat ∧ c.toNat ≤ 90
  · have e1 := shift_char_upper_toNat c 0 hu.1 hu.2
    apply char_eq_of_toNat
    rw [Int.add_zero, Int.emod_eq_of_lt (by omega) (by omega)] at e1
    omega
  · by_cases hl : 97 ≤ c.toNat ∧ c.toNat ≤ 122
    · have e1 := shift_char_lower_toNat c 0 hl.1 hl.2
      apply char_eq_of_toNat
      rw [Int.add_zero, Int.emod_eq_of_lt (by omega) (by omega)] at e1
      omega
    · have ha : py_isalpha c = false := by
        simp only [py_isalpha, decide_eq_false_iff_not]
        push_neg
        omega
      exact shift_char_of_not_alpha _ _ ha


/-- C1 counterexample: the round-trip law fails on the one-character Unicode
text `"é"` with shift `0`, because Python's `isalpha()` classifies `é` as
alphabetic and `shift_char` collapses it into the ASCII range (`encrypt`
yields `"g"`), which decryption cannot undo. -/
theorem roundtrip_fails_on_unicode :
    decrypt (encrypt "é".data 0) 0 ≠ "é".data := by
  decide

/-- C1 (amended): for every text consisting of ASCII characters (code points
below U+0080) and every integer shift, decrypting the encryption returns the
original text exactly, character for character. -/
theorem roundtrip_ascii (t : List Char) (s : Int) (h : ∀ c ∈ t, c.toNat < 128) :
    decrypt (encrypt t s) s = t := by
  show List.map _ (List.map _ t) = t
  rw [List.map_map]
  induction t with
  | nil => rfl
  | cons c t ih =>
      rw [List.map_cons]
      have hc := h c (List.mem_cons_self c t)
      rw [Function.comp_apply, shift_char_roundtrip_ascii c s hc]
      rw [ih (fun d hd => h d (List.mem_cons_of_mem c hd))]

/-- C1 witness: the round-trip at a concrete ASCII text and shift. -/
theorem roundtrip_ascii_witness :
    decrypt (encrypt "Hello, World!".data 3) 3 = "Hello, World!".data :=
  roundtrip_ascii "Hello, World!".data 3 (by decide)

/-- C2 counterexample: the non-Latin Unicode letter `é` is not an ASCII letter
yet `shift_char` changes it (to `h` at shift `1`), refuting the claim that
every character other than an ASCII letter is returned unchanged. -/
theorem shift_char_changes_nonlatin_letter : shift_char 'é' 1 ≠ 'é' := by
  decide

/-- C2 (amended): restricted to ASCII characters the claim holds — for every
character with code point below U+0080 that is not an ASCII letter (`A`-`Z` or
`a`-`z`) and every integer shift, `shift_char` returns the character
unchanged; digits, punctuation and whitespace all pass through.  (Non-Latin
Unicode letters, which Python's `isalpha()` accepts, are transformed instead.) -/
theorem shift_char_ascii_nonletters_fixed (c : Char) (s : Int)
    (h : c.toNat < 128)
    (hn : ¬((65 ≤ c.toNat ∧ c.toNat ≤ 90) ∨ (97 ≤ c.toNat ∧ c.toNat ≤ 122))) :
    shift_char c s = c := by
  apply shift_char_of_not_alpha
  simp only [py_isalpha, decide_eq_false_iff_not]
  push_neg
  push_neg at hn
  omega

/-- C2 witness: a concrete ASCII non-letter is fixed by `shift_char`. -/
theorem shift_char_ascii_nonletters_fixed_witness : shift_char '!' 5 = '!' :=
  shift_char_ascii_nonletters_fixed '!' 5 (by decide) (by decide)

/-- C3 counterexample: the identity-shift law fails on the Unicode text `"é"`:
`encrypt "é" 0` is `"g"`, not `"é"`. -/
theorem identity_shift_fails_on_unicode : encrypt "é".data 0 ≠ "é".data := by
  decide

/-- C3 (amended): for every text consisting of ASCII characters (code points
below U+0080), `encrypt t 0 = t` and `decrypt t 0 = t`. -/
theorem identity_shift_ascii (t : List Char) (h : ∀ c ∈ t, c.toNat < 128) :
    encrypt t 0 = t ∧ decrypt t 0 = t := by
  have henc : ∀ (s : Int), normalize_shift s = 0 →
      encrypt t s = t := by
    intro s hs
    rw [encrypt]
    induction t with
    | nil => rfl
    | cons c t ih =>
        rw [List.map_cons]
        have hc := h c (List.mem_cons_self c t)
        rw [shift_char_norm_zero_ascii c s hc hs]
        rw [ih (fun d hd => h d (List.mem_cons_of_mem c hd))]
  exact ⟨henc 0 rfl, henc (-0) rfl⟩

/-- C3 witness: identity shift at a concrete ASCII text. -/
theorem identity_shift_ascii_witness :
    encrypt "Hello!".data 0 = "Hello!".data ∧ decrypt "Hello!".data 0 = "Hello!".data :=
  identity_shift_ascii "Hello!".data (by decide)

/-- C4 (confirmed): `brute_force_candidates t` has exactly 26 entries, and the
entry at position `k` is the pair `(k, decrypt t k)` — so the shifts appear as
`0, 1, ..., 25` in ascending order. -/
theorem brute_force_spec (t : List Char) :
    (brute_force_candidates t).length = 26 ∧
    ∀ (k : Nat) (hk : k < (brute_force_candidates t).length),
      (brute_force_candidates t).get ⟨k, hk⟩ = ((k : Int), decrypt t (k : Int)) := by
  constructor
  · rw [brute_force_candidates, List.length_map, List.length_range]
  · intro k hk
    simp only [List.get_eq_getElem, brute_force_candidates, List.getElem_map,
      List.getElem_range]

/-- C4 witness: entry 3 of the brute-force list of a concrete text. -/
theorem brute_force_spec_witness :
    (brute_force_candidates "Khoor".data).get ⟨3, by decide⟩
      = ((3 : Int), decrypt "Khoor".data 3) :=
  (brute_force_spec "Khoor".data).2 3 (by decide)

/-- C5 (confirmed): `encrypt t s = encrypt t (s % 26)` for every text and
every integer shift, where `%` is the non-negative remainder in `[0, 26)`
(Lean's `Int.emod` with positive modulus, agreeing with Python's `%`). -/
theorem encrypt_shift_normalization (t : List Char) (s : Int) :
    encrypt t s = encrypt t (s % 26) ∧ 0 ≤ s % 26 ∧ s % 26 < 26 := by
  refine ⟨?_, Int.emod_nonneg s (by norm_num), Int.emod_lt_of_pos s (by norm_num)⟩
  have hn : normalize_shift (s % 26) = normalize_shift s := by
    show s % 26 % 26 = s % 26
    omega
  rw [encrypt, encrypt, hn]

/-- C6 (confirmed): encryption preserves length, and position for position the
output character is the shift of the input character at the same index. -/
theorem encrypt_length_preserving (t : List Char) (s : Int) :
    (encrypt t s).length = t.length ∧
    ∀ (i : Nat) (h1 : i < (encrypt t s).length) (h2 : i < t.length),
      (encrypt t s).get ⟨i, h1⟩ = shift_char (t.get ⟨i, h2⟩) (normalize_shift s) := by
  constructor
  · simp [encrypt]
  · intro i h1 h2
    simp [encrypt]

/-- C6 witness: length and position preservation at a concrete text, shift and
index. -/
theorem encrypt_length_preserving_witness :
    (encrypt "ab".data 1).get ⟨0, by decide⟩
      = shift_char ("ab".data.get ⟨0, by decide⟩) (normalize_shift 1) :=
  (encrypt_length_preserving "ab".data 1).2 0 (by decide) (by decide)

/-- C8 (confirmed): the two concrete reference vectors —
`encrypt "Hello, World!" 3 = "Khoor, Zruog!"` (case preservation and
punctuation pass-through) and `encrypt "abcXYZ" 2 = "cdeZAB"` (wrap-around). -/
theorem reference_vectors :
    encrypt "Hello, World!".data 3 = "Khoor, Zruog!".data ∧
    encrypt "abcXYZ".data 2 = "cdeZAB".data := by
  constructor
  · decide
  · decide

/-- C7 (confirmed): in the shift state, whenever the (stripped) shift input is
not claimed by the decrypt-all branch and fails integer parsing, the loop
prints the shift error message and returns to the mode prompt: the next state
is `awaitMode` — which carries no text, so the entered text is discarded — and
never `terminated`, so the error is recovered in place and the loop continues. -/
theorem shift_parse_error_recovers (m t line : List Char)
    (hb : ¬(m = "d".data ∧ py_strip line = "?".data))
    (hp : py_int (py_strip line) = none) :
    istep (.awaitShift m t) line
      = (.awaitMode,
         ["Shift must be an integer (e.g., 3, -2, 52). Try again.\n".data]) := by
  simp only [istep]
  rw [if_neg hb, hp]

/-- C7 witness: mode `e`, text `hi`, non-integer shift input `abc`. -/
theorem shift_parse_error_recovers_witness :
    istep (.awaitShift "e".data "hi".data) "abc".data
      = (.awaitMode,
         ["Shift must be an integer (e.g., 3, -2, 52). Try again.\n".data]) :=
  shift_parse_error_recovers "e".data "hi".data "abc".data (by decide) (by decide)

/-- C9 (confirmed): `main` takes the one-shot batch path exactly when `--mode`
is supplied (argparse restricts a supplied mode to the nonempty strings
`"encrypt"`/`"decrypt"`, so Python truthiness coincides with presence) and
`--shift` and `--text` are not `None`; in particular `--shift 0` and
`--text ""` still select batch mode. -/
theorem batch_dispatch_iff (a : Args)
    (h : a.mode = none ∨ a.mode = some "encrypt" ∨ a.mode = some "decrypt") :
    main_runs_batch a = true ↔
      (a.mode.isSome = true ∧ a.shift.isSome = true ∧ a.text.isSome = true) := by
  rcases h with h | h | h <;>
    simp [main_runs_batch, py_truthy, h]

/-- C9 witness: `--mode encrypt --shift 0 --text ""` selects the batch path. -/
theorem batch_dispatch_iff_witness :
    main_runs_batch ⟨some "encrypt", some 0, some ""⟩ = true :=
  (batch_dispatch_iff ⟨some "encrypt", some 0, some ""⟩
    (Or.inr (Or.inl rfl))).mpr (by decide)

/-- C10 (confirmed): the mode input is stripped and lowercased (so `" Q "`
quits, printing the farewell), the shift input is stripped (so `" 3 "` parses
as shift 3, in encrypt and in decrypt mode alike), and the message line is
passed into the shift state verbatim, with no stripping, for every input. -/
theorem interactive_input_trimming :
    istep .awaitMode " Q ".data = (.terminated, ["Goodbye!".data]) ∧
    (∀ t : List Char,
      istep (.awaitShift "e".data t) " 3 ".data = (.awaitMode, [encryptedMsg 3 t])) ∧
    (∀ t : List Char,
      istep (.awaitShift "d".data t) " 3 ".data = (.awaitMode, [decryptedMsg 3 t])) ∧
    (∀ m line : List Char, istep (.awaitText m) line = (.awaitShift m line, [])) := by
  exact ⟨by decide, fun t => rfl, fun t => rfl, fun m line => rfl⟩
